import Mathlib

/-!
Shallow embedding of the due-date scheduling core of the Anki fork
(`rslib/src/scheduler/reviews.rs`), its error taxonomy
(`rslib/src/error/mod.rs`) and the HTTP error adapter
(`rslib/src/sync/http_server/error.rs`), together with theorems settling
the frozen claims about them.

Machine integers are modelled as `Nat`/`Int`; wrapping 32-bit arithmetic
(release-mode Rust semantics) is made explicit with `% 2^32` where
overflow is reachable.  `f32` values (the supplied ease factor) are
idealised as exact rationals.  Source functions keep their Rust names in
camelCase.
-/

namespace Anki

/-! ## Machine arithmetic helpers -/

/-- Reinterpret a (wrapped) unsigned 32-bit value as a signed 32-bit
integer (`u32 as i32` in Rust). -/
def u32AsI32 (n : ℕ) : ℤ :=
  let m : ℕ := n % 2 ^ 32
  if m < 2 ^ 31 then (m : ℤ) else (m : ℤ) - 2 ^ 32

/-- Wrap an unbounded integer into signed 32-bit range: the result of a
wrapping i32 operation or an `as i32` truncating cast. -/
def i32Wrap (z : ℤ) : ℤ :=
  let m := z % 2 ^ 32
  if m < 2 ^ 31 then m else m - 2 ^ 32

/-- Wrapping i32 subtraction (`a - b` on `i32` in release mode). -/
def i32Sub (a b : ℤ) : ℤ := i32Wrap (a - b)

/-- Wrapping u32 addition (`a + b` on `u32` in release mode). -/
def u32Add (a b : ℕ) : ℕ := (a + b) % 2 ^ 32

/-- `u32::saturating_add_signed`: add an `i32` to a `u32`, saturating at
both ends of the `u32` range. -/
def u32SaturatingAddSigned (u : ℕ) (d : ℤ) : ℕ :=
  let s : ℤ := (u : ℤ) + d
  if s < 0 then 0
  else if s > 2 ^ 32 - 1 then 2 ^ 32 - 1
  else s.toNat

/-- Rust `/` on `i64`: truncated (toward-zero) division. -/
def i64Div (a b : ℤ) : ℤ := Int.tdiv a b

/-! ## Error taxonomy (`rslib/src/error/mod.rs`)

`AnkiError`'s variants, payloads kept only where the claims need them
(`InvalidInput` carries its context message, `NotFound` the entity type
name and the missing identifier). -/

inductive AnkiError where
  | invalidInput (message : String)
  | templateError
  | cardTypeError
  | fileIoError
  | dbError
  | networkError
  | syncError
  | jsonError (info : String)
  | protoError (info : String)
  | parseNumError
  | interrupted
  | collectionNotOpen
  | collectionAlreadyOpen
  | notFound (typeName : String) (identifier : String)
  | deleted
  | existing
  | filteredDeckError
  | searchError
  | invalidRegex (info : String)
  | undoEmpty
  | multipleNotetypesSelected
  | databaseCheckRequired
  | mediaCheckRequired
  | customStudyError
  | importError
  | invalidId
  | invalidMethodIndex
  | invalidServiceIndex
  | fsrsParamsInvalid
  | fsrsInsufficientData
  | fsrsInsufficientReviews (count : ℕ)
  | fsrsUnableToDetermineDesiredRetention
  | schedulerUpgradeRequired
  | invalidCertificateFormat
  deriving DecidableEq, Repr

/-! ## Due-date specifier parser (`parse_due_date_str`) -/

structure DueDateSpecifier where
  min : ℕ
  max : ℕ
  force_reset : Bool
  deriving DecidableEq, Repr

/-- The non-ASCII Unicode decimal-digit (category Nd) codepoint ranges,
inclusive (Unicode 15.1): the regex crate's `\d` is Unicode-aware by
default and matches these in addition to the ASCII digits. -/
def nonAsciiNdRanges : List (ℕ × ℕ) :=
  [ (0x660, 0x669), (0x6F0, 0x6F9), (0x7C0, 0x7C9), (0x966, 0x96F),
    (0x9E6, 0x9EF), (0xA66, 0xA6F), (0xAE6, 0xAEF), (0xB66, 0xB6F),
    (0xBE6, 0xBEF), (0xC66, 0xC6F), (0xCE6, 0xCEF), (0xD66, 0xD6F),
    (0xDE6, 0xDEF), (0xE50, 0xE59), (0xED0, 0xED9), (0xF20, 0xF29),
    (0x1040, 0x1049), (0x1090, 0x1099), (0x17E0, 0x17E9), (0x1810, 0x1819),
    (0x1946, 0x194F), (0x19D0, 0x19D9), (0x1A80, 0x1A89), (0x1A90, 0x1A99),
    (0x1B50, 0x1B59), (0x1BB0, 0x1BB9), (0x1C40, 0x1C49), (0x1C50, 0x1C59),
    (0xA620, 0xA629), (0xA8D0, 0xA8D9), (0xA900, 0xA909), (0xA9D0, 0xA9D9),
    (0xA9F0, 0xA9F9), (0xAA50, 0xAA59), (0xABF0, 0xABF9), (0xFF10, 0xFF19),
    (0x104A0, 0x104A9), (0x10D30, 0x10D39), (0x11066, 0x1106F),
    (0x110F0, 0x110F9), (0x11136, 0x1113F), (0x111D0, 0x111D9),
    (0x112F0, 0x112F9), (0x11450, 0x11459), (0x114D0, 0x114D9),
    (0x11650, 0x11659), (0x116C0, 0x116C9), (0x11730, 0x11739),
    (0x118E0, 0x118E9), (0x11950, 0x11959), (0x11C50, 0x11C59),
    (0x11D50, 0x11D59), (0x11DA0, 0x11DA9), (0x11F50, 0x11F59),
    (0x16A60, 0x16A69), (0x16AC0, 0x16AC9), (0x16B50, 0x16B59),
    (0x1D7CE, 0x1D7FF), (0x1E140, 0x1E149), (0x1E2F0, 0x1E2F9),
    (0x1E4F0, 0x1E4F9), (0x1E950, 0x1E959), (0x1FBF0, 0x1FBF9) ]

/-- The regex crate's Unicode-aware `\d`: an ASCII digit or any other
Unicode decimal digit (category Nd). -/
def isRegexDigit (c : Char) : Bool :=
  c.isDigit ||
    nonAsciiNdRanges.any (fun r => decide (r.1 ≤ c.toNat ∧ c.toNat ≤ r.2))

/-- Syntactic part of the regex `^(?P<min>\d+)(-(?P<max>\d+))?(!)?$`:
on a match, return the `min` digit run, the optional `max` digit run and
whether the trailing `!` is present. -/
def rawParse (cs : List Char) : Option (List Char × Option (List Char) × Bool) :=
  let ds1 := cs.takeWhile isRegexDigit
  if ds1.isEmpty then none
  else
    match cs.dropWhile isRegexDigit with
    | [] => some (ds1, none, false)
    | ['!'] => some (ds1, none, true)
    | '-' :: rest =>
      let ds2 := rest.takeWhile isRegexDigit
      if ds2.isEmpty then none
      else
        match rest.dropWhile isRegexDigit with
        | [] => some (ds1, some ds2, false)
        | ['!'] => some (ds1, some ds2, true)
        | _ => none
    | _ => none

/-- Numeric value of a run of ASCII digits. -/
def natOfDigits (ds : List Char) : ℕ :=
  ds.foldl (fun a c => a * 10 + (c.toNat - 48)) 0

/-- `str::parse::<u32>` on a captured run: every character must be an
ASCII digit (the regex may capture non-ASCII decimal digits, which
`parse` rejects with `InvalidDigit`) and the value must fit in `u32`
(`PosOverflow` otherwise); either `ParseIntError` surfaces as
`AnkiError::ParseNumError`. -/
def parseU32 (ds : List Char) : Option ℕ :=
  if ds.all Char.isDigit then
    let n := natOfDigits ds
    if n < 2 ^ 32 then some n else none
  else none

/-- `parse_due_date_str`: regex match (failure → `InvalidInput` tagged
with the offending string, via `.or_invalid(s)`), numeric parse of the
captures (overflow → `ParseNumError`), then min/max normalization. -/
def parseDueDateStr (s : String) : Except AnkiError DueDateSpecifier :=
  match rawParse s.data with
  | none => .error (.invalidInput s)
  | some (d1, md2, bang) =>
    match parseU32 d1 with
    | none => .error .parseNumError
    | some mn =>
      match md2 with
      | none =>
        -- `max` defaults to `min`
        .ok { min := Nat.min mn mn, max := Nat.max mn mn, force_reset := bang }
      | some d2 =>
        match parseU32 d2 with
        | none => .error .parseNumError
        | some mx =>
          .ok { min := Nat.min mn mx, max := Nat.max mx mn, force_reset := bang }

/-! ## Card scheduling state (`rslib/src/card.rs` shape, fields used by
`scheduler/reviews.rs`) -/

structure CardId where
  val : ℤ
  deriving DecidableEq, Repr

structure NoteId where
  val : ℤ
  deriving DecidableEq, Repr

structure DeckId where
  val : ℤ
  deriving DecidableEq, Repr

structure DeckConfigId where
  val : ℤ
  deriving DecidableEq, Repr

inductive CardType where
  | new
  | learn
  | review
  | relearn
  deriving DecidableEq, Repr

inductive CardQueue where
  | new
  | learn
  | review
  | dayLearn
  | suspended
  | schedBuried
  | userBuried
  deriving DecidableEq, Repr

/-- The per-card scheduling fields.  `memoryState`'s payload is opaque to
this core (only its presence switches the algorithm), `position` stands
for the card's current queue position read by `last_position()`. -/
structure Card where
  id : CardId
  noteId : NoteId
  deckId : DeckId
  /-- `DeckId(0)` encodes "not parked in a filtered deck". -/
  originalDeckId : DeckId
  ctype : CardType
  queue : CardQueue
  /-- i32 -/
  due : ℤ
  /-- i32, filtered-deck backup of `due` (0 = unset) -/
  originalDue : ℤ
  /-- u32 -/
  interval : ℕ
  /-- u16, fixed-point scaled by 1000; 0 = not yet set -/
  easeFactor : ℕ
  originalPosition : Option ℕ
  position : Option ℕ
  memoryState : Option Unit
  /-- i64 seconds -/
  lastReviewTime : Option ℤ
  deriving DecidableEq, Repr

/-- `DeckId::or`: `self` unless it is the zero sentinel. -/
def DeckId.or (a b : DeckId) : DeckId := if a.val = 0 then b else a

/-- Modelled from the spec: `Card::original_or_current_due` is not under
`src/`.  §3 describes `original_due` as the filtered-deck backup of
`due` (zero when unset), so the card's effective due value is
`original_due` when non-zero, else `due`. -/
def Card.originalOrCurrentDue (c : Card) : ℤ :=
  if c.originalDue ≠ 0 then c.originalDue else c.due

/-- Modelled from the spec: `is_unix_epoch_timestamp`
(`scheduler/timing.rs`) is not under `src/`.  §4.2/§9 call it a fixed
magnitude heuristic detecting a raw epoch timestamp stored in a
day-count field. -/
def isUnixEpochTimestamp (stamp : ℤ) : Bool := stamp > 1000000000

/-- Modelled from the spec: `TimestampSecs::elapsed_days_since` is not
under `src/`.  §6 requires "elapsed days since" between two instants:
the non-negative seconds difference divided by 86 400 (a `u64` in the
source, cast to `u32` at the use site). -/
def elapsedDaysSince (self other : ℤ) : ℕ := (self - other).toNat / 86400

/-- Modelled from the spec:
`Card::remove_from_filtered_deck_before_reschedule` is not under
`src/`.  §4.2 step 2 and the §3 invariant: if the card is parked in a
filtered deck, restore `due` from its backup and clear the filtered-deck
bookkeeping fields. -/
def Card.removeFromFilteredDeckBeforeReschedule (c : Card) : Card :=
  if c.originalDeckId.val ≠ 0 then
    { c with due := c.originalDue, originalDue := 0, originalDeckId := ⟨0⟩ }
  else c

/-- The fixed-point conversion `(ease_factor * 1000.0).round() as u16`,
with `f32` idealised as an exact rational; Rust's float→int `as` cast
saturates at the target type's range. -/
def easeToU16 (e : ℚ) : ℕ := (max 0 (min (round (e * 1000)) 65535)).toNat

/-- `Card::schedule_as_review`. -/
def Card.scheduleAsReview (c : Card) (interval : ℕ) (due : ℤ) (easeFactor : ℕ) : Card :=
  let c := { c with originalPosition := c.position }
  let c := c.removeFromFilteredDeckBeforeReschedule
  let c := { c with interval := interval, due := due,
                    ctype := CardType.review, queue := CardQueue.review }
  -- unlike the old Python code, the ease factor is left alone if already set
  if c.easeFactor = 0 then { c with easeFactor := easeFactor } else c

/-- `Card::set_due_date`: make the card due in `daysFromToday` days,
converting it into a review card if needed. -/
def Card.setDueDate (c : Card) (today : ℕ) (nextDayStart : ℤ)
    (daysFromToday : ℕ) (easeFactor : ℚ) (forceReset : Bool) : Card :=
  let newDue : ℤ := u32AsI32 (today + daysFromToday)
  let fsrsEnabled := c.memoryState.isSome
  let newInterval : ℕ :=
    if fsrsEnabled then
      match c.lastReviewTime with
      | some lastReviewTime =>
        -- `elapsed_days as u32 + days_from_today`
        u32Add (elapsedDaysSince nextDayStart lastReviewTime % 2 ^ 32) daysFromToday
      | none =>
        let due := c.originalOrCurrentDue
        let dueDiff : ℤ :=
          if isUnixEpochTimestamp due then
            let offset := i64Div (due - nextDayStart) 86400
            let due2 := i32Wrap ((today : ℤ) + offset)
            i32Sub newDue due2
          else
            i32Sub newDue due
        u32SaturatingAddSigned c.interval dueDiff
    else if forceReset = true ∨ ¬(c.ctype = CardType.review ∨ c.ctype = CardType.relearn) then
      Nat.max daysFromToday 1
    else
      Nat.max c.interval 1
  let ease := easeToU16 easeFactor
  c.scheduleAsReview newInterval newDue ease

/-! ## Collection state and the transactional engine

The persistent store, deck provider, timing source and answering
subsystem are external collaborators (§6); they are modelled as fields
of the collection state.  The batch operations `Collection::set_due_date`
and `Collection::grade_now` from `scheduler/reviews.rs` are embedded
over this state. -/

structure StringKey where
  val : ℕ
  deriving DecidableEq, Repr

structure Deck where
  id : DeckId
  /-- `Deck::config_id()`: `none` when the deck is filtered. -/
  configId : Option DeckConfigId
  deriving DecidableEq, Repr

structure DeckConfig where
  id : DeckConfigId
  initialEase : ℚ
  deriving DecidableEq, Repr

/-- The default deck configuration's initial ease (2.5), used by
`get_deck_config(_, fallback_to_default := true)`. -/
def defaultDeckConfig : DeckConfig := { id := ⟨0⟩, initialEase := 5 / 2 }

/-- An opaque scheduling state produced by the answering subsystem. -/
structure SchedState where
  val : ℕ
  deriving DecidableEq, Repr

/-- The four target states plus the current one, fetched per card at
grading time (§3). -/
structure SchedulingStates where
  current : SchedState
  again : SchedState
  hard : SchedState
  good : SchedState
  easy : SchedState
  deriving DecidableEq, Repr

/-- The answer record built by `grade_now` and handed to the answering
subsystem (`anki_proto::scheduler::CardAnswer` plus the `from_queue`
flag). -/
structure CardAnswer where
  cardId : CardId
  currentState : SchedState
  newState : SchedState
  rating : ℤ
  millisecondsTaken : ℕ
  answeredAtMillis : ℤ
  fromQueue : Bool
  deriving DecidableEq, Repr

inductive Op where
  | setDueDate
  | gradeNow
  deriving DecidableEq, Repr

/-- The opaque changeset description inside an `OpOutput`:
`Default::default()` is the empty changeset, a successful transaction
yields the changeset of its op kind. -/
inductive OpChanges where
  | empty
  | forOp (op : Op)
  deriving DecidableEq, Repr

structure OpOutput (α : Type) where
  output : α
  changes : OpChanges

/-- The transactional record store: everything a transaction body may
write and an abort must roll back. -/
structure Store where
  cards : List Card
  config : List (StringKey × String)
  /-- manual-reschedule log entries: card id, pre-mutation interval, usn -/
  revlog : List (CardId × ℕ × ℤ)
  /-- answer records handed to the answering subsystem -/
  answers : List CardAnswer
  deriving DecidableEq, Repr

structure Collection where
  store : Store
  decks : List Deck
  deckConfigs : List DeckConfig
  /-- external answering subsystem: `get_scheduling_states(card_id)` -/
  schedStates : CardId → Option SchedulingStates
  usn : ℤ
  /-- `timing_today()?.days_elapsed` -/
  todayDays : ℕ
  /-- `timing_today()?.next_day_at.0` -/
  nextDayAt : ℤ
  /-- `TimestampMillis::now()` -/
  nowMillis : ℤ
  /-- instrumentation: number of transactions ever opened on this
  collection (not part of the store, hence not rolled back) -/
  beganTransactions : ℕ

/-- Modelled from the spec: `Collection::transact` (§4.5) is not under
`src/`.  Opens a transaction, runs the body; an error aborts all store
writes (the caller observes the original store), success records an
undo step labelled with the op kind and returns an `OpOutput` whose
changeset reflects the op. -/
def Collection.transact {α : Type} (col : Collection) (op : Op)
    (body : Collection → Except AnkiError (Collection × α)) :
    Except AnkiError (OpOutput α) × Collection :=
  let col1 := { col with beganTransactions := col.beganTransactions + 1 }
  match body col1 with
  | .error e => (.error e, { col1 with store := col.store })
  | .ok (col2, a) => (.ok { output := a, changes := .forOp op }, col2)

/-- Modelled from the spec: the store's fetch-cards-by-id (§6) is not
under `src/`: it "returns exactly the found subset, letting the caller
detect omissions". -/
def Collection.allCardsForIds (col : Collection) (cids : List CardId) : List Card :=
  cids.filterMap (fun cid => col.store.cards.find? (fun c => decide (c.id = cid)))

/-- Modelled from the spec: fetch-deck-by-id (§6) is not under `src/`. -/
def Collection.getDeck (col : Collection) (did : DeckId) : Option Deck :=
  col.decks.find? (fun d => decide (d.id = did))

/-- Modelled from the spec: fetch-deck-config-by-id (§6) is not under
`src/`; with the fallback flag set it always yields a configuration
(the default one when the id is absent). -/
def Collection.getDeckConfig (col : Collection) (cfgId : DeckConfigId) : DeckConfig :=
  (col.deckConfigs.find? (fun c => decide (c.id = cfgId))).getD defaultDeckConfig

/-- Modelled from the spec: record-a-manual-reschedule-log-entry (§6)
is not under `src/`; it carries the pre-mutation interval and the usn. -/
def Collection.logManuallyScheduledReview (col : Collection) (card : Card)
    (prevInterval : ℕ) (usn : ℤ) : Collection :=
  { col with store := { col.store with
      revlog := col.store.revlog ++ [(card.id, prevInterval, usn)] } }

/-- Modelled from the spec: persist-card (§6) is not under `src/`:
write the mutated card back to the store by id. -/
def Collection.updateCardInner (col : Collection) (card : Card) : Collection :=
  { col with store := { col.store with
      cards := col.store.cards.map (fun c => if c.id = card.id then card else c) } }

/-- Modelled from the spec: set-a-named-string-config-value (§6) is not
under `src/`. -/
def Collection.setConfigStringInner (col : Collection) (key : StringKey)
    (val : String) : Collection :=
  { col with store := { col.store with
      config := (key, val) :: col.store.config.filter (fun kv => decide (kv.1 ≠ key)) } }

/-- Modelled from the spec: `answer_card_inner` (§4.6, §6) is not under
`src/`: the external answering subsystem applies the answer record; the
record itself is appended to the store. -/
def Collection.answerCardInner (col : Collection) (a : CardAnswer) : Collection :=
  { col with store := { col.store with answers := col.store.answers ++ [a] } }

/-- The per-card loop of `Collection::set_due_date`: resolve the
effective deck, memoize its initial ease, sample a day offset from the
specifier's range, reschedule, log and persist.  `draw idx` supplies
the idx-th sample of the uniform distribution over `[min, max]`
(`Uniform::new_inclusive(spec.min, spec.max)`), normalized into range. -/
def setDueDateLoop (spec : DueDateSpecifier) (today : ℕ) (nextDayStart : ℤ)
    (usn : ℤ) (draw : ℕ → ℕ) :
    List Card → ℕ → List (DeckId × ℚ) → Collection →
    Except AnkiError Collection
  | [], _, _, col => .ok col
  | card :: rest, idx, cache, col =>
    let deckId := card.originalDeckId.or card.deckId
    let cachedEase : Except AnkiError (ℚ × List (DeckId × ℚ)) :=
      match cache.find? (fun e => decide (e.1 = deckId)) with
      | some e => .ok (e.2, cache)
      | none =>
        match col.getDeck deckId with
        | none => .error (.notFound "deck" (toString deckId.val))
        | some deck =>
          match deck.configId with
          | none => .error (.invalidInput "home deck is filtered")
          | some cfgId =>
            let ease := (col.getDeckConfig cfgId).initialEase
            .ok (ease, (deckId, ease) :: cache)
    match cachedEase with
    | .error e => .error e
    | .ok (ease, cache') =>
      let original := card
      let daysFromToday := spec.min + draw idx % (spec.max - spec.min + 1)
      let card' := card.setDueDate today nextDayStart daysFromToday ease spec.force_reset
      let col := col.logManuallyScheduledReview card' original.interval usn
      let col := col.updateCardInner card'
      setDueDateLoop spec today nextDayStart usn draw rest (idx + 1) cache' col

/-- `Collection::set_due_date`: parse the specifier, return trivially on
an empty id list, otherwise snapshot timing once and run the batch in
one transaction; a missing card id aborts with `NotFound` naming the
first missing id. -/
def Collection.setDueDate (col : Collection) (cids : List CardId) (days : String)
    (context : Option StringKey) (draw : ℕ → ℕ) :
    Except AnkiError (OpOutput Unit) × Collection :=
  match parseDueDateStr days with
  | .error e => (.error e, col)
  | .ok spec =>
    if cids.isEmpty then
      (.ok { output := (), changes := .empty }, col)
    else
      let usn := col.usn
      let today := col.todayDays
      let nextDayStart := col.nextDayAt
      col.transact .setDueDate (fun c =>
        let cards := c.allCardsForIds cids
        if cards.length ≠ cids.length then
          -- the source `unwrap`s this find; it cannot fail when the
          -- length mismatch stems from a genuinely missing id
          let missing := (cids.find? (fun cid =>
            ¬ cards.any (fun card => decide (card.id = cid)))).getD ⟨0⟩
          .error (.notFound "card" (toString missing.val))
        else
          match setDueDateLoop spec today nextDayStart usn draw cards 0 [] c with
          | .error e => .error e
          | .ok c2 =>
            let c3 := match context with
                      | some key => c2.setConfigStringInner key days
                      | none => c2
            .ok (c3, ()))

/-- The per-card loop of `Collection::grade_now`: fetch the scheduling
states, select the target state by rating (any other rating fails with
"invalid rating"), build the answer record (zero elapsed time, current
instant, not from queue) and hand it to the answering subsystem. -/
def gradeNowLoop (rating : ℤ) :
    List CardId → Collection → Except AnkiError Collection
  | [], col => .ok col
  | cid :: rest, col =>
    match col.schedStates cid with
    | none => .error (.notFound "card" (toString cid.val))
    | some states =>
      let newState : Except AnkiError SchedState :=
        if rating = 0 then .ok states.again
        else if rating = 1 then .ok states.hard
        else if rating = 2 then .ok states.good
        else if rating = 3 then .ok states.easy
        else .error (.invalidInput "invalid rating")
      match newState with
      | .error e => .error e
      | .ok newState =>
        let answer : CardAnswer :=
          { cardId := cid, currentState := states.current, newState := newState,
            rating := rating, millisecondsTaken := 0,
            answeredAtMillis := col.nowMillis, fromQueue := false }
        gradeNowLoop rating rest (col.answerCardInner answer)

/-- `Collection::grade_now`: one transaction covering all ids. -/
def Collection.gradeNow (col : Collection) (cids : List CardId) (rating : ℤ) :
    Except AnkiError (OpOutput Unit) × Collection :=
  col.transact .gradeNow (fun c =>
    match gradeNowLoop rating cids c with
    | .error e => .error e
    | .ok c2 => .ok (c2, ()))

/-! ## HTTP adapter error mapping
(`rslib/src/sync/http_server/error.rs`) -/

inductive ApiError where
  | anki (err : AnkiError)
  | json (bodyText : String)
  | http (code : ℕ) (context : String)
  deriving DecidableEq, Repr

/-- The status selection of `ApiError::into_response`. -/
def ApiError.responseStatus : ApiError → ℕ
  | .anki err =>
    match err with
    | .notFound _ _ => 404
    | .invalidInput _ => 400
    | .existing => 409
    | _ => 500
  | .json _ => 400
  | .http code _ => code

/-! ## Sample inputs used by witnesses and counterexamples -/

/-- A typical existing review card in the legacy (non-FSRS) model. -/
def sampleReviewCard : Card :=
  { id := ⟨1⟩, noteId := ⟨1⟩, deckId := ⟨1⟩, originalDeckId := ⟨0⟩,
    ctype := .review, queue := .review, due := 10, originalDue := 0,
    interval := 5, easeFactor := 2500, originalPosition := none,
    position := none, memoryState := none, lastReviewTime := none }

/-- A brand-new card (zero ease factor). -/
def sampleNewCard : Card :=
  { id := ⟨2⟩, noteId := ⟨2⟩, deckId := ⟨1⟩, originalDeckId := ⟨0⟩,
    ctype := .new, queue := .new, due := 0, originalDue := 0,
    interval := 0, easeFactor := 0, originalPosition := none,
    position := none, memoryState := none, lastReviewTime := none }

/-- An FSRS card (memory state present) reviewed at epoch second 0. -/
def sampleFsrsCard : Card :=
  { id := ⟨3⟩, noteId := ⟨3⟩, deckId := ⟨1⟩, originalDeckId := ⟨0⟩,
    ctype := .review, queue := .review, due := 10, originalDue := 0,
    interval := 5, easeFactor := 2500, originalPosition := none,
    position := none, memoryState := some (), lastReviewTime := some 0 }

/-- An empty collection. -/
def sampleCollection : Collection :=
  { store := { cards := [], config := [], revlog := [], answers := [] },
    decks := [], deckConfigs := [], schedStates := fun _ => none,
    usn := 0, todayDays := 0, nextDayAt := 0, nowMillis := 0,
    beganTransactions := 0 }

/-- A one-state answering subsystem for grading witnesses. -/
def sampleStates : SchedulingStates :=
  { current := ⟨10⟩, again := ⟨11⟩, hard := ⟨12⟩, good := ⟨13⟩, easy := ⟨14⟩ }

/-- A collection whose answering subsystem knows card 1. -/
def sampleGradeCollection : Collection :=
  { sampleCollection with
    store := { cards := [sampleReviewCard], config := [], revlog := [], answers := [] },
    schedStates := fun cid => if cid.val = 1 then some sampleStates else none }

end Anki

namespace Anki

/-! ## Test vectors from the Rust unit test `due_date`
(`scheduler/reviews.rs`): the card states reached at each step. -/

def cNew : Card :=
  { id := ⟨0⟩, noteId := ⟨0⟩, deckId := ⟨0⟩, originalDeckId := ⟨0⟩,
    ctype := .new, queue := .new, due := 0, originalDue := 0,
    interval := 0, easeFactor := 0, originalPosition := none,
    position := none, memoryState := none, lastReviewTime := none }

def t1 : Card := cNew.setDueDate 5 0 2 (18/10) false
def t1c : Card :=
  { cNew with ctype := .review, queue := .review, due := 7, interval := 2,
              easeFactor := 1800 }
def t2 : Card := t1c.setDueDate 6 0 3 (25/10) false
def t3 : Card := t2.setDueDate 6 0 1 (24/10) false
def t4 : Card := t3.setDueDate 6 0 3 (23/10) true
def t5 : Card :=
  { t4 with interval := 2, easeFactor := 0, originalDue := 7,
            originalDeckId := (⟨1⟩ : DeckId), due := -10000, queue := CardQueue.new }
def t6 : Card := t5.setDueDate 6 0 1 (22/10) false
def t6c : Card :=
  { t5 with ctype := .review, queue := .review, due := 7, interval := 2,
            easeFactor := 2200, originalDue := 0, originalDeckId := ⟨0⟩ }
def t7 : Card := { t6c with ctype := CardType.relearn, originalDue := t6c.due, due := 12345678 }
def t8 : Card := t7.setDueDate 6 0 10 (21/10) false

end Anki

namespace Anki

/-! ## The embedding reproduces the Rust unit tests -/

/-- The `parse` unit test of `scheduler/reviews.rs`, plus overflow
behavior at the u32 boundary. -/
theorem rust_test_parse :
    parseDueDateStr "" = .error (.invalidInput "") ∧
    parseDueDateStr "x" = .error (.invalidInput "x") ∧
    parseDueDateStr "-5" = .error (.invalidInput "-5") ∧
    parseDueDateStr "5" = .ok ⟨5, 5, false⟩ ∧
    parseDueDateStr "5!" = .ok ⟨5, 5, true⟩ ∧
    parseDueDateStr "50-70" = .ok ⟨50, 70, false⟩ ∧
    parseDueDateStr "70-50!" = .ok ⟨50, 70, true⟩ ∧
    parseDueDateStr "4294967296" = .error .parseNumError ∧
    parseDueDateStr "4294967295" = .ok ⟨4294967295, 4294967295, false⟩ :=
  ⟨rfl, rfl, rfl, rfl, rfl, rfl, rfl, rfl, rfl⟩

/-- The `due_date` unit test of `scheduler/reviews.rs`: converting a new
card, shifting without interval change, forced reset, a filtered-deck
card, and relearning treated like review. -/
theorem rust_test_due_date :
    t1 = t1c ∧
    (t2.due = 9 ∧ t2.interval = 2 ∧ t2.easeFactor = 1800) ∧
    (t3.due = 7 ∧ t3.interval = 2 ∧ t3.easeFactor = 1800) ∧
    (t4.due = 9 ∧ t4.interval = 3 ∧ t4.easeFactor = 1800) ∧
    t6 = t6c ∧
    (t8.due = 16 ∧ t8.interval = 2 ∧ t8.easeFactor = 2200) := by
  refine ⟨?_, by decide, by decide, by decide, ?_, by decide⟩
  · norm_num [t1, t1c, cNew, Card.setDueDate, Card.scheduleAsReview,
      Card.removeFromFilteredDeckBeforeReschedule, easeToU16, u32AsI32]
    decide
  · norm_num [t6, t6c, t5, t4, t3, t2, t1c, cNew, Card.setDueDate,
      Card.scheduleAsReview, Card.removeFromFilteredDeckBeforeReschedule,
      easeToU16, u32AsI32]
    decide

/-! ## Helper lemmas -/

theorem scheduleAsReview_due (c : Card) (i : ℕ) (d : ℤ) (e : ℕ) :
    (c.scheduleAsReview i d e).due = d := by
  simp only [Card.scheduleAsReview]
  split <;> rfl

theorem scheduleAsReview_interval (c : Card) (i : ℕ) (d : ℤ) (e : ℕ) :
    (c.scheduleAsReview i d e).interval = i := by
  simp only [Card.scheduleAsReview]
  split <;> rfl

theorem scheduleAsReview_ctype (c : Card) (i : ℕ) (d : ℤ) (e : ℕ) :
    (c.scheduleAsReview i d e).ctype = CardType.review := by
  simp only [Card.scheduleAsReview]
  split <;> rfl

theorem scheduleAsReview_queue (c : Card) (i : ℕ) (d : ℤ) (e : ℕ) :
    (c.scheduleAsReview i d e).queue = CardQueue.review := by
  simp only [Card.scheduleAsReview]
  split <;> rfl

theorem scheduleAsReview_easeFactor (c : Card) (i : ℕ) (d : ℤ) (e : ℕ) :
    (c.scheduleAsReview i d e).easeFactor =
      if c.easeFactor = 0 then e else c.easeFactor := by
  simp only [Card.scheduleAsReview, Card.removeFromFilteredDeckBeforeReschedule]
  split <;> split <;> simp_all

theorem setDueDate_due (c : Card) (today : ℕ) (nds : ℤ) (days : ℕ) (e : ℚ)
    (fr : Bool) :
    (c.setDueDate today nds days e fr).due = u32AsI32 (today + days) := by
  simp only [Card.setDueDate]
  exact scheduleAsReview_due ..

end Anki

namespace Anki

/-! ## Claim C8 -/

/-- C8: `setDueDateForCards` called with an empty card-id list and a
valid specifier string succeeds, returning an `OpOutput` with an empty
changeset, opens no transaction, and performs no store writes (the
collection, including its transaction counter, is returned unchanged). -/
theorem setDueDate_empty_cids_no_op
    (col : Collection) (days : String) (ctx : Option StringKey) (draw : ℕ → ℕ)
    (spc : DueDateSpecifier) (hparse : parseDueDateStr days = .ok spc) :
    col.setDueDate [] days ctx draw =
      (.ok { output := (), changes := .empty }, col) := by
  unfold Collection.setDueDate
  rw [hparse]
  rfl

/-- Witness for C8 at a concrete collection and specifier. -/
theorem setDueDate_empty_cids_no_op_witness :
    sampleCollection.setDueDate [] "5" none (fun _ => 0) =
      (.ok { output := (), changes := .empty }, sampleCollection) :=
  setDueDate_empty_cids_no_op sampleCollection "5" none (fun _ => 0)
    ⟨5, 5, false⟩ rfl

/-! ## Claim C9 -/

/-- Counterexample to C9 as stated: `AnkiError::Existing` is neither
"not found" nor "invalid input", yet the adapter maps it to 409
(conflict), not to the internal-error status 500. -/
theorem responseStatus_existing_counterexample :
    ApiError.responseStatus (.anki .existing) = 409 ∧ (409 : ℕ) ≠ 500 :=
  ⟨rfl, by decide⟩

/-- C9 (amended): the HTTP adapter maps "not found" to 404, "invalid
input" to 400, `Existing` to 409 (conflict), and every other error kind
to 500. -/
theorem responseStatus_mapping :
    (∀ t i, ApiError.responseStatus (.anki (.notFound t i)) = 404) ∧
    (∀ m, ApiError.responseStatus (.anki (.invalidInput m)) = 400) ∧
    ApiError.responseStatus (.anki .existing) = 409 ∧
    (∀ e : AnkiError, (∀ t i, e ≠ .notFound t i) →
      (∀ m, e ≠ .invalidInput m) → e ≠ .existing →
      ApiError.responseStatus (.anki e) = 500) := by
  refine ⟨fun t i => rfl, fun m => rfl, rfl, ?_⟩
  intro e h1 h2 h3
  cases e <;> first
    | rfl
    | exact absurd rfl (h1 _ _)
    | exact absurd rfl (h2 _)
    | exact absurd rfl h3

/-- Witness for C9's amended mapping at concrete errors. -/
theorem responseStatus_mapping_witness :
    ApiError.responseStatus (.anki (.notFound "card" "7")) = 404 ∧
    ApiError.responseStatus (.anki (.invalidInput "bad")) = 400 ∧
    ApiError.responseStatus (.anki .interrupted) = 500 :=
  ⟨responseStatus_mapping.1 "card" "7",
   responseStatus_mapping.2.1 "bad",
   responseStatus_mapping.2.2.2 .interrupted
     (fun _ _ h => AnkiError.noConfusion h)
     (fun _ h => AnkiError.noConfusion h)
     (fun h => AnkiError.noConfusion h)⟩

/-! ## Claim C10 -/

/-- Counterexample to C10 as stated: `today = 1`,
`daysFromToday = 2^32 - 1` (accepted by the parser) has
`today + daysFromToday ≥ 2^31`, yet the stored due is `0`, not
negative: the wrapped sum has passed `2^32` and come back around. -/
theorem setDueDate_due_wrap_counterexample :
    2 ^ 31 ≤ 1 + (2 ^ 32 - 1) ∧
    (sampleReviewCard.setDueDate 1 0 (2 ^ 32 - 1) 0 false).due = 0 ∧
    ¬ (sampleReviewCard.setDueDate 1 0 (2 ^ 32 - 1) 0 false).due < 0 := by
  refine ⟨by decide, ?_, ?_⟩ <;> rw [setDueDate_due] <;> decide

/-- C10 (amended): the stored due is the 32-bit sum
`(today + daysFromToday) mod 2^32` reinterpreted as a signed 32-bit
integer; whenever `2^31 ≤ today + daysFromToday < 2^32` — reachable,
since the parser accepts day offsets up to `2^32 - 1` — the stored due
equals `today + daysFromToday - 2^32` and is negative rather than the
mathematical sum. -/
theorem setDueDate_due_wraps_32bit :
    (∀ (c : Card) (today days : ℕ) (nds : ℤ) (e : ℚ) (fr : Bool),
      (c.setDueDate today nds days e fr).due = u32AsI32 (today + days)) ∧
    (∀ (c : Card) (today days : ℕ) (nds : ℤ) (e : ℚ) (fr : Bool),
      2 ^ 31 ≤ today + days → today + days < 2 ^ 32 →
      (c.setDueDate today nds days e fr).due = (today : ℤ) + days - 2 ^ 32 ∧
      (c.setDueDate today nds days e fr).due < 0) := by
  constructor
  · intro c today days nds e fr
    exact setDueDate_due ..
  · intro c today days nds e fr h1 h2
    rw [setDueDate_due]
    unfold u32AsI32
    rw [Nat.mod_eq_of_lt h2]
    rw [if_neg (by omega)]
    constructor
    · push_cast
      ring
    · have : ((today + days : ℕ) : ℤ) < 2 ^ 32 := by exact_mod_cast h2
      push_cast at this ⊢
      omega

/-- Witness for C10's amended statement: `today = 0`,
`daysFromToday = 2^31` yields due `-2^31`. -/
theorem setDueDate_due_wraps_32bit_witness :
    (sampleReviewCard.setDueDate 0 0 (2 ^ 31) 0 false).due =
      ((0 : ℕ) : ℤ) + ((2 ^ 31 : ℕ) : ℤ) - 2 ^ 32 ∧
    (sampleReviewCard.setDueDate 0 0 (2 ^ 31) 0 false).due < 0 :=
  setDueDate_due_wraps_32bit.2 sampleReviewCard 0 (2 ^ 31) 0 0 false
    (by decide) (by decide)

end Anki

namespace Anki

/-! ## Branch lemmas for `Card::set_due_date` -/

theorem setDueDate_easeFactor (c : Card) (today days : ℕ) (nds : ℤ) (e : ℚ)
    (fr : Bool) :
    (c.setDueDate today nds days e fr).easeFactor =
      if c.easeFactor = 0 then easeToU16 e else c.easeFactor := by
  simp only [Card.setDueDate, scheduleAsReview_easeFactor]

theorem setDueDate_ctype (c : Card) (today days : ℕ) (nds : ℤ) (e : ℚ)
    (fr : Bool) :
    (c.setDueDate today nds days e fr).ctype = CardType.review := by
  simp only [Card.setDueDate, scheduleAsReview_ctype]

theorem setDueDate_queue (c : Card) (today days : ℕ) (nds : ℤ) (e : ℚ)
    (fr : Bool) :
    (c.setDueDate today nds days e fr).queue = CardQueue.review := by
  simp only [Card.setDueDate, scheduleAsReview_queue]

theorem setDueDate_interval_legacy (c : Card) (today days : ℕ) (nds : ℤ)
    (e : ℚ) (fr : Bool) (hms : c.memoryState = none) :
    (c.setDueDate today nds days e fr).interval =
      if fr = true ∨ ¬(c.ctype = CardType.review ∨ c.ctype = CardType.relearn)
      then Nat.max days 1 else Nat.max c.interval 1 := by
  simp only [Card.setDueDate, hms, Option.isSome_none, scheduleAsReview_interval,
    Bool.false_eq_true, if_false]

theorem setDueDate_interval_fsrs_lastReview (c : Card) (today days : ℕ)
    (nds : ℤ) (e : ℚ) (fr : Bool) (lrt : ℤ)
    (hms : c.memoryState = some ()) (hlrt : c.lastReviewTime = some lrt) :
    (c.setDueDate today nds days e fr).interval =
      u32Add (elapsedDaysSince nds lrt % 2 ^ 32) days := by
  simp only [Card.setDueDate, hms, hlrt, Option.isSome_some, if_true,
    scheduleAsReview_interval]

theorem setDueDate_interval_fsrs_noLastReview (c : Card) (today days : ℕ)
    (nds : ℤ) (e : ℚ) (fr : Bool)
    (hms : c.memoryState = some ()) (hlrt : c.lastReviewTime = none) :
    (c.setDueDate today nds days e fr).interval =
      u32SaturatingAddSigned c.interval
        (if isUnixEpochTimestamp c.originalOrCurrentDue = true
         then i32Sub (u32AsI32 (today + days))
                (i32Wrap ((today : ℤ) + i64Div (c.originalOrCurrentDue - nds) 86400))
         else i32Sub (u32AsI32 (today + days)) c.originalOrCurrentDue) := by
  simp only [Card.setDueDate, hms, hlrt, Option.isSome_some, if_true,
    scheduleAsReview_interval]

/-! ## 32-bit identity lemmas -/

theorem u32AsI32_eq_self (n : ℕ) (h : n < 2 ^ 31) : u32AsI32 n = (n : ℤ) := by
  unfold u32AsI32
  rw [Nat.mod_eq_of_lt (lt_trans h (by norm_num))]
  rw [if_pos h]

theorem i32Wrap_eq_self (z : ℤ) (h1 : -(2 ^ 31) ≤ z) (h2 : z < 2 ^ 31) :
    i32Wrap z = z := by
  unfold i32Wrap
  dsimp only
  split <;> omega

end Anki

namespace Anki

/-! ## Claim C2 -/

/-- Counterexample to C2 as stated: a non-FSRS review card rescheduled
with `today = 0`, `daysFromToday = 2^31` (accepted by the parser) gets
a wrapped, negative due instead of `today + daysFromToday`. -/
theorem setDueDate_review_legacy_counterexample :
    sampleReviewCard.memoryState = none ∧
    sampleReviewCard.ctype = CardType.review ∧
    (sampleReviewCard.setDueDate 0 0 (2 ^ 31) 0 false).due ≠
      ((0 : ℕ) : ℤ) + ((2 ^ 31 : ℕ) : ℤ) := by
  refine ⟨rfl, rfl, ?_⟩
  rw [setDueDate_due]
  decide

/-- C2 (amended): for a card with no memory state of type
review/relearning, rescheduling without `force_reset` yields
`due = today + daysFromToday` whenever that sum is below `2^31` (beyond
it the 32-bit value wraps, see the C10 theorem), preserves the interval
as `max(1, interval)`, and leaves a non-zero ease factor unchanged. -/
theorem setDueDate_review_legacy
    (c : Card) (today days : ℕ) (nds : ℤ) (e : ℚ)
    (hms : c.memoryState = none)
    (hty : c.ctype = CardType.review ∨ c.ctype = CardType.relearn)
    (hsum : today + days < 2 ^ 31) :
    (c.setDueDate today nds days e false).due = (today : ℤ) + days ∧
    (c.setDueDate today nds days e false).interval = Nat.max 1 c.interval ∧
    (c.easeFactor ≠ 0 →
      (c.setDueDate today nds days e false).easeFactor = c.easeFactor) := by
  refine ⟨?_, ?_, ?_⟩
  · rw [setDueDate_due, u32AsI32_eq_self _ hsum]
    push_cast
    ring
  · rw [setDueDate_interval_legacy _ _ _ _ _ _ hms, if_neg (by simp [hty])]
    exact Nat.max_comm ..
  · intro hease
    rw [setDueDate_easeFactor, if_neg hease]

/-- Witness for C2 at a concrete review card (non-zero ease factor). -/
theorem setDueDate_review_legacy_witness :
    (sampleReviewCard.setDueDate 6 0 3 0 false).due = ((6 : ℕ) : ℤ) + ((3 : ℕ) : ℤ) ∧
    (sampleReviewCard.setDueDate 6 0 3 0 false).interval =
      Nat.max 1 sampleReviewCard.interval ∧
    (sampleReviewCard.setDueDate 6 0 3 0 false).easeFactor =
      sampleReviewCard.easeFactor := by
  have h := setDueDate_review_legacy sampleReviewCard 6 3 0 0 rfl (Or.inl rfl)
    (by decide)
  exact ⟨h.1, h.2.1, h.2.2 (by decide)⟩

/-! ## Claim C3 -/

/-- C3: for a card with no memory state, if `force_reset` is set or the
card is not of type review/relearning, the new interval is
`max(1, daysFromToday)`; a brand-new card (`ease_factor = 0`)
additionally gets `ease_factor = round(suppliedEase * 1000)` (the
supplied ease being representable in the u16 fixed-point range) and is
converted to type review, queue review. -/
theorem setDueDate_force_or_nonreview
    (c : Card) (today days : ℕ) (nds : ℤ) (e : ℚ) (fr : Bool)
    (hms : c.memoryState = none)
    (hcase : fr = true ∨ ¬(c.ctype = CardType.review ∨ c.ctype = CardType.relearn))
    (hrl : 0 ≤ round (e * 1000)) (hru : round (e * 1000) ≤ 65535) :
    (c.setDueDate today nds days e fr).interval = Nat.max 1 days ∧
    (c.easeFactor = 0 →
      (c.setDueDate today nds days e fr).easeFactor = (round (e * 1000)).toNat ∧
      (c.setDueDate today nds days e fr).ctype = CardType.review ∧
      (c.setDueDate today nds days e fr).queue = CardQueue.review) := by
  constructor
  · rw [setDueDate_interval_legacy _ _ _ _ _ _ hms, if_pos hcase]
    exact Nat.max_comm ..
  · intro h0
    refine ⟨?_, setDueDate_ctype .., setDueDate_queue ..⟩
    rw [setDueDate_easeFactor, if_pos h0]
    unfold easeToU16
    rw [min_eq_left hru, max_eq_right hrl]

/-- Witness for C3 at a brand-new card. -/
theorem setDueDate_force_or_nonreview_witness :
    (sampleNewCard.setDueDate 5 0 2 0 false).interval = Nat.max 1 2 ∧
    (sampleNewCard.setDueDate 5 0 2 0 false).easeFactor =
      (round ((0 : ℚ) * 1000)).toNat ∧
    (sampleNewCard.setDueDate 5 0 2 0 false).ctype = CardType.review ∧
    (sampleNewCard.setDueDate 5 0 2 0 false).queue = CardQueue.review := by
  have h := setDueDate_force_or_nonreview sampleNewCard 5 2 0 0 false rfl
    (Or.inr (by decide)) (by simp) (by simp)
  exact ⟨h.1, (h.2 rfl).1, (h.2 rfl).2.1, (h.2 rfl).2.2⟩

/-! ## Claim C4 -/

/-- Counterexample to C4 as stated: an FSRS card with a last review time
one elapsed day ago, rescheduled with `daysFromToday = 2^32 - 1`
(accepted by the parser), gets interval `0`: the sum
`elapsedDays + daysFromToday = 2^32` wraps, so the new interval is not
`elapsedDaysSince(referenceInstant, last_review_time) + daysFromToday`. -/
theorem setDueDate_fsrs_counterexample :
    sampleFsrsCard.memoryState = some () ∧
    sampleFsrsCard.lastReviewTime = some 0 ∧
    (sampleFsrsCard.setDueDate 0 86400 (2 ^ 32 - 1) 0 false).interval = 0 ∧
    (0 : ℕ) ≠ elapsedDaysSince 86400 0 + (2 ^ 32 - 1) := by
  refine ⟨rfl, rfl, ?_, by decide⟩
  rw [setDueDate_interval_fsrs_lastReview _ _ _ _ _ _ 0 rfl rfl]
  decide

/-- C4 (amended): for a card with a memory state, if it has a
`last_review_time` the new interval is
`elapsedDaysSince(referenceInstant, last_review_time) + daysFromToday`
whenever that sum fits in 32 bits (beyond that it wraps mod `2^32`),
independent of the stored interval; otherwise the new interval is the
saturating never-negative sum `interval + (newDue - referenceDue)`,
with `referenceDue` the card's effective due value, first converted
from a raw epoch timestamp to a day count relative to today when the
magnitude heuristic detects one — provided `today + daysFromToday`
and the intermediate differences fit in the signed 32-bit range
(beyond that they wrap). -/
theorem setDueDate_fsrs_interval
    (c : Card) (today days : ℕ) (nds : ℤ) (e : ℚ) (fr : Bool)
    (hms : c.memoryState = some ()) :
    (∀ lrt, c.lastReviewTime = some lrt →
      elapsedDaysSince nds lrt + days < 2 ^ 32 →
      (c.setDueDate today nds days e fr).interval =
        elapsedDaysSince nds lrt + days) ∧
    (c.lastReviewTime = none → today + days < 2 ^ 31 →
      ∀ refDue : ℤ,
        refDue = (if isUnixEpochTimestamp c.originalOrCurrentDue = true
                  then (today : ℤ) + i64Div (c.originalOrCurrentDue - nds) 86400
                  else c.originalOrCurrentDue) →
        -(2 ^ 31) ≤ refDue → refDue < 2 ^ 31 →
        -(2 ^ 31) ≤ (today : ℤ) + days - refDue →
        (today : ℤ) + days - refDue < 2 ^ 31 →
        (c.setDueDate today nds days e fr).interval =
          u32SaturatingAddSigned c.interval ((today : ℤ) + days - refDue)) := by
  constructor
  · intro lrt hlrt hlt
    rw [setDueDate_interval_fsrs_lastReview _ _ _ _ _ _ lrt hms hlrt]
    unfold u32Add
    rw [Nat.mod_eq_of_lt (a := elapsedDaysSince nds lrt) (by omega)]
    exact Nat.mod_eq_of_lt hlt
  · intro hlrt hsum refDue href hr1 hr2 hd1 hd2
    rw [setDueDate_interval_fsrs_noLastReview _ _ _ _ _ _ hms hlrt]
    have hdue : u32AsI32 (today + days) = (today : ℤ) + days := by
      rw [u32AsI32_eq_self _ hsum]
      push_cast
      ring
    congr 1
    split
    · rename_i hepoch
      rw [hepoch] at href
      simp only [if_true] at href
      unfold i32Sub
      rw [hdue, ← href, i32Wrap_eq_self refDue hr1 hr2,
        i32Wrap_eq_self _ hd1 hd2]
    · rename_i hepoch
      simp only [Bool.not_eq_true] at hepoch
      rw [hepoch] at href
      simp only [Bool.false_eq_true, if_false] at href
      unfold i32Sub
      rw [hdue, ← href, i32Wrap_eq_self _ hd1 hd2]

/-- Witness for C4's amended statement: an FSRS card last reviewed
three days before the reference instant, shifted by 2 days. -/
theorem setDueDate_fsrs_interval_witness :
    (sampleFsrsCard.setDueDate 10 259200 2 0 false).interval =
      elapsedDaysSince 259200 0 + 2 :=
  (setDueDate_fsrs_interval sampleFsrsCard 10 2 259200 0 false rfl).1 0 rfl
    (by decide)

end Anki

namespace Anki

/-! ## Parser lemmas and claims C5, C6 -/

/-- Every character of a string accepted by the specifier regex is a
decimal digit (`\d`), a hyphen, or a bang. -/
theorem rawParse_mem_chars (cs : List Char) (r : List Char × Option (List Char) × Bool)
    (h : rawParse cs = some r) :
    ∀ c ∈ cs, isRegexDigit c = true ∨ c = '-' ∨ c = '!' := by
  intro c hc
  rw [← List.takeWhile_append_dropWhile isRegexDigit cs] at hc
  rcases List.mem_append.mp hc with h1 | h2
  · exact Or.inl (List.mem_takeWhile_imp h1)
  · unfold rawParse at h
    split at h
    · rename_i hd
      rw [hd] at h2
      exact absurd h2 (List.not_mem_nil c)
    · rename_i hd
      rw [hd] at h2
      simp only [List.mem_singleton] at h2
      exact Or.inr (Or.inr h2)
    · rename_i rest hd
      rw [hd] at h2
      rcases List.mem_cons.mp h2 with h2 | h2
      · exact Or.inr (Or.inl h2)
      · rw [← List.takeWhile_append_dropWhile isRegexDigit rest] at h2
        rcases List.mem_append.mp h2 with h3 | h3
        · exact Or.inl (List.mem_takeWhile_imp h3)
        · repeat' split at h
          all_goals first
            | (rename_i hd2
               rw [hd2] at h3
               exact absurd h3 (List.not_mem_nil c))
            | (rename_i hd2
               rw [hd2] at h3
               simp only [List.mem_singleton] at h3
               exact Or.inr (Or.inr h3))
            | simp at h
    · exact absurd h (by simp)

/-- C5: whenever `parse_due_date_str` succeeds, `min ≤ max` in the
result; `min`/`max` are the pairwise min/max of the two parsed numbers
regardless of input order; a single number `n` yields `min = max = n`;
and `"70-50!"` yields `min = 50, max = 70, force_reset = true`. -/
theorem parseDueDateStr_normalizes :
    (∀ s spc, parseDueDateStr s = .ok spc → spc.min ≤ spc.max) ∧
    (∀ (s : String) d1 d2 bang a b,
      rawParse s.data = some (d1, some d2, bang) →
      parseU32 d1 = some a → parseU32 d2 = some b →
      parseDueDateStr s = .ok ⟨Nat.min a b, Nat.max a b, bang⟩) ∧
    (∀ (s : String) d1 bang a,
      rawParse s.data = some (d1, none, bang) →
      parseU32 d1 = some a →
      parseDueDateStr s = .ok ⟨a, a, bang⟩) ∧
    parseDueDateStr "70-50!" = .ok ⟨50, 70, true⟩ := by
  refine ⟨?_, ?_, ?_, rfl⟩
  · intro s spc h
    unfold parseDueDateStr at h
    cases hr : rawParse s.data with
    | none => rw [hr] at h; exact absurd h (by simp)
    | some r =>
      obtain ⟨d1, md2, bang⟩ := r
      rw [hr] at h
      dsimp only at h
      cases h1 : parseU32 d1 with
      | none => rw [h1] at h; exact absurd h (by simp)
      | some mn =>
        rw [h1] at h
        dsimp only at h
        cases md2 with
        | none =>
          dsimp only at h
          injection h with h
          subst h
          dsimp only
          simp only [Nat.min_def, Nat.max_def]
          split_ifs <;> omega
        | some d2 =>
          dsimp only at h
          cases h2 : parseU32 d2 with
          | none => rw [h2] at h; exact absurd h (by simp)
          | some mx =>
            rw [h2] at h
            dsimp only at h
            injection h with h
            subst h
            dsimp only
            simp only [Nat.min_def, Nat.max_def]
            split_ifs <;> omega
  · intro s d1 d2 bang a b hraw h1 h2
    unfold parseDueDateStr
    rw [hraw]
    dsimp only
    rw [h1, h2]
    dsimp only
    have hmx : Nat.max b a = Nat.max a b := by
      simp only [Nat.max_def]
      split_ifs <;> omega
    rw [hmx]
  · intro s d1 bang a hraw h1
    unfold parseDueDateStr
    rw [hraw]
    dsimp only
    rw [h1]
    dsimp only
    have hmn : Nat.min a a = a := by
      simp only [Nat.min_def]
      split_ifs <;> omega
    have hmx : Nat.max a a = a := by
      simp only [Nat.max_def]
      split_ifs <;> omega
    rw [hmn, hmx]

/-- Witness for C5: `"70-50"` parses with the two numbers swapped into
order. -/
theorem parseDueDateStr_normalizes_witness :
    parseDueDateStr "70-50" = .ok ⟨Nat.min 70 50, Nat.max 70 50, false⟩ ∧
    Nat.min 70 50 ≤ Nat.max 70 50 := by
  constructor
  · exact parseDueDateStr_normalizes.2.1 "70-50" ['7', '0'] ['5', '0'] false
      70 50 rfl rfl rfl
  · exact parseDueDateStr_normalizes.1 "70-50" ⟨Nat.min 70 50, Nat.max 70 50, false⟩
      (parseDueDateStr_normalizes.2.1 "70-50" ['7', '0'] ['5', '0'] false 70 50 rfl rfl rfl)

/-- C6: `parse_due_date_str` fails with an "invalid input" error tagged
with the offending string on the empty string, on any input containing
a character the grammar can never match (not a decimal digit, hyphen or
bang), on any input without a decimal digit, and on a bare negative
number `"-5"`; a numeric component that overflows `u32` on parsing also
fails (with the number-parse error), as does a captured run containing
a non-ASCII decimal digit, which the regex matches but `parse::<u32>`
rejects. -/
theorem parseDueDateStr_failures :
    parseDueDateStr "" = .error (.invalidInput "") ∧
    (∀ s : String, (∃ c ∈ s.data, ¬(isRegexDigit c = true ∨ c = '-' ∨ c = '!')) →
      parseDueDateStr s = .error (.invalidInput s)) ∧
    (∀ s : String, (∀ c ∈ s.data, isRegexDigit c = false) →
      parseDueDateStr s = .error (.invalidInput s)) ∧
    parseDueDateStr "-5" = .error (.invalidInput "-5") ∧
    (∀ (s : String) d1 md2 bang, rawParse s.data = some (d1, md2, bang) →
      2 ^ 32 ≤ natOfDigits d1 →
      parseDueDateStr s = .error .parseNumError) ∧
    (∀ (s : String) d1 d2 bang, rawParse s.data = some (d1, some d2, bang) →
      d1.all Char.isDigit = true → natOfDigits d1 < 2 ^ 32 →
      2 ^ 32 ≤ natOfDigits d2 →
      parseDueDateStr s = .error .parseNumError) ∧
    (∀ (s : String) d1 md2 bang, rawParse s.data = some (d1, md2, bang) →
      ¬(d1.all Char.isDigit = true) →
      parseDueDateStr s = .error .parseNumError) := by
  refine ⟨rfl, ?_, ?_, rfl, ?_, ?_, ?_⟩
  · intro s ⟨c, hc, hbad⟩
    cases hr : rawParse s.data with
    | none => unfold parseDueDateStr; rw [hr]
    | some r => exact absurd (rawParse_mem_chars s.data r hr c hc) hbad
  · intro s hall
    have hr : rawParse s.data = none := by
      unfold rawParse
      rw [if_pos]
      rw [List.isEmpty_iff, List.takeWhile_eq_nil_iff]
      intro hl
      have hd := hall _ (List.get_mem s.data 0 hl)
      simp only [List.get_eq_getElem] at hd
      simp [hd]
    unfold parseDueDateStr
    rw [hr]
  · intro s d1 md2 bang hraw hov
    have h1 : parseU32 d1 = none := by
      unfold parseU32
      split
      · dsimp only
        rw [if_neg (by omega)]
      · rfl
    unfold parseDueDateStr
    rw [hraw]
    dsimp only
    rw [h1]
  · intro s d1 d2 bang hraw hd1 hlt hov
    have h1 : parseU32 d1 = some (natOfDigits d1) := by
      unfold parseU32
      rw [if_pos hd1]
      dsimp only
      rw [if_pos hlt]
    have h2 : parseU32 d2 = none := by
      unfold parseU32
      split
      · dsimp only
        rw [if_neg (by omega)]
      · rfl
    unfold parseDueDateStr
    rw [hraw]
    dsimp only
    rw [h1]
    dsimp only
    rw [h2]
  · intro s d1 md2 bang hraw hnd
    have h1 : parseU32 d1 = none := by
      unfold parseU32
      rw [if_neg hnd]
    unfold parseDueDateStr
    rw [hraw]
    dsimp only
    rw [h1]

/-- Witness for C6 at concrete failing inputs: a foreign character, a
u32 overflow, and a non-ASCII decimal digit (Arabic-Indic five), which
fails in the numeric parse rather than the regex match. -/
theorem parseDueDateStr_failures_witness :
    parseDueDateStr "x" = .error (.invalidInput "x") ∧
    parseDueDateStr "4294967296" = .error .parseNumError ∧
    parseDueDateStr "٥" = .error .parseNumError := by
  refine ⟨?_, ?_, ?_⟩
  · exact parseDueDateStr_failures.2.1 "x" ⟨'x', by decide, by decide⟩
  · exact parseDueDateStr_failures.2.2.2.2.1 "4294967296"
      ['4', '2', '9', '4', '9', '6', '7', '2', '9', '6'] none false rfl (by decide)
  · exact parseDueDateStr_failures.2.2.2.2.2.2 "٥" ['٥'] none false rfl (by decide)

end Anki

namespace Anki

/-! ## Claim C7 -/

/-- Counterexample to C7 as stated: with an empty batch, `grade_now`
succeeds even for the out-of-range rating 5 — the rating is only
inspected per card, so no failure occurs. -/
theorem gradeNow_empty_batch_counterexample :
    (sampleCollection.gradeNow [] 5).1 =
      .ok { output := (), changes := .forOp .gradeNow } := rfl

/-- The single-card success path of `grade_now`: with the state-selection
step resolving to `ns`, the answer record handed to the answering
subsystem carries the current state, `ns`, the rating, zero elapsed
milliseconds, the current instant, and `from_queue = false`. -/
theorem gradeNow_single (col : Collection) (cid : CardId) (st : SchedulingStates)
    (hst : col.schedStates cid = some st) (r : ℤ) (ns : SchedState)
    (hsel : (if r = 0 then Except.ok st.again
             else if r = 1 then Except.ok st.hard
             else if r = 2 then Except.ok st.good
             else if r = 3 then Except.ok st.easy
             else Except.error (AnkiError.invalidInput "invalid rating")) =
            Except.ok ns) :
    ((col.gradeNow [cid] r).2).store.answers =
      col.store.answers ++
        [{ cardId := cid, currentState := st.current,
           newState := ns, rating := r, millisecondsTaken := 0,
           answeredAtMillis := col.nowMillis, fromQueue := false }] := by
  unfold Collection.gradeNow Collection.transact
  dsimp only
  unfold gradeNowLoop
  dsimp only
  rw [hst]
  dsimp only
  rw [hsel]
  dsimp only
  unfold gradeNowLoop Collection.answerCardInner
  dsimp only

/-- C7 (amended): for a rating outside `{0,1,2,3}`, `grade_now` on a
non-empty batch whose first card has scheduling states available fails
with the "invalid rating" invalid-input error and leaves the store
untouched (an empty batch trivially succeeds instead); for ratings in
the set, 0 selects the again state, 1 hard, 2 good and 3 easy in the
answer record handed to the answering subsystem. -/
theorem gradeNow_rating_dispatch :
    (∀ (col : Collection) (cid : CardId) (rest : List CardId) (rating : ℤ)
       (st : SchedulingStates),
      col.schedStates cid = some st →
      rating ≠ 0 → rating ≠ 1 → rating ≠ 2 → rating ≠ 3 →
      (col.gradeNow (cid :: rest) rating).1 =
        .error (.invalidInput "invalid rating") ∧
      ((col.gradeNow (cid :: rest) rating).2).store = col.store) ∧
    (∀ (col : Collection) (cid : CardId) (st : SchedulingStates),
      col.schedStates cid = some st →
      ((col.gradeNow [cid] 0).2).store.answers =
        col.store.answers ++
          [{ cardId := cid, currentState := st.current,
             newState := st.again, rating := 0, millisecondsTaken := 0,
             answeredAtMillis := col.nowMillis, fromQueue := false }] ∧
      ((col.gradeNow [cid] 1).2).store.answers =
        col.store.answers ++
          [{ cardId := cid, currentState := st.current,
             newState := st.hard, rating := 1, millisecondsTaken := 0,
             answeredAtMillis := col.nowMillis, fromQueue := false }] ∧
      ((col.gradeNow [cid] 2).2).store.answers =
        col.store.answers ++
          [{ cardId := cid, currentState := st.current,
             newState := st.good, rating := 2, millisecondsTaken := 0,
             answeredAtMillis := col.nowMillis, fromQueue := false }] ∧
      ((col.gradeNow [cid] 3).2).store.answers =
        col.store.answers ++
          [{ cardId := cid, currentState := st.current,
             newState := st.easy, rating := 3, millisecondsTaken := 0,
             answeredAtMillis := col.nowMillis, fromQueue := false }]) := by
  constructor
  · intro col cid rest rating st hst h0 h1 h2 h3
    unfold Collection.gradeNow Collection.transact
    dsimp only
    unfold gradeNowLoop
    dsimp only
    rw [hst]
    dsimp only
    rw [if_neg h0, if_neg h1, if_neg h2, if_neg h3]
    exact ⟨rfl, rfl⟩
  · intro col cid st hst
    refine ⟨?_, ?_, ?_, ?_⟩ <;>
      exact gradeNow_single col cid st hst _ _ (by norm_num)

/-- Witness for C7's amended statement: rating 7 on a one-card batch
fails with invalid input and writes nothing; rating 0 records the again
state. -/
theorem gradeNow_rating_dispatch_witness :
    ((sampleGradeCollection.gradeNow [⟨1⟩] 7).1 =
      .error (.invalidInput "invalid rating") ∧
    ((sampleGradeCollection.gradeNow [⟨1⟩] 7).2).store =
      sampleGradeCollection.store) ∧
    ((sampleGradeCollection.gradeNow [⟨1⟩] 0).2).store.answers =
      sampleGradeCollection.store.answers ++
        [{ cardId := ⟨1⟩, currentState := sampleStates.current,
           newState := sampleStates.again, rating := 0,
           millisecondsTaken := 0,
           answeredAtMillis := sampleGradeCollection.nowMillis,
           fromQueue := false }] :=
  ⟨gradeNow_rating_dispatch.1 sampleGradeCollection ⟨1⟩ [] 7 sampleStates rfl
      (by decide) (by decide) (by decide) (by decide),
   (gradeNow_rating_dispatch.2 sampleGradeCollection ⟨1⟩ sampleStates rfl).1⟩

end Anki

namespace Anki

/-! ## Claim C1 -/

theorem length_filterMap_lt_of_none {α β : Type _} (f : α → Option β)
    (l : List α) (a : α) (ha : a ∈ l) (hfa : f a = none) :
    (l.filterMap f).length < l.length := by
  induction l with
  | nil => cases ha
  | cons b t ih =>
    rcases List.mem_cons.mp ha with rfl | ha'
    · rw [List.filterMap_cons_none hfa]
      exact Nat.lt_succ_of_le (List.length_filterMap_le f t)
    · cases hfb : f b with
      | none =>
        rw [List.filterMap_cons_none hfb]
        exact Nat.lt_succ_of_lt (ih ha')
      | some c =>
        rw [List.filterMap_cons_some hfb]
        simpa using Nat.succ_lt_succ (ih ha')

theorem find?_congr_mem {α : Type _} (p q : α → Bool) (l : List α)
    (h : ∀ a ∈ l, p a = q a) : l.find? p = l.find? q := by
  induction l with
  | nil => rfl
  | cons b t ih =>
    rw [List.find?_cons, List.find?_cons, h b (List.mem_cons_self b t)]
    cases hqb : q b with
    | true => rfl
    | false => exact ih (fun a ha => h a (List.mem_cons_of_mem b ha))

/-- For an id in the requested batch, the fetched subset contains a card
with that id exactly when the store does. -/
theorem any_allCardsForIds_eq_isSome (col : Collection) (cids : List CardId)
    (cid : CardId) (hcid : cid ∈ cids) :
    (col.allCardsForIds cids).any (fun card => decide (card.id = cid)) =
      (col.store.cards.find? (fun c => decide (c.id = cid))).isSome := by
  cases hfind : col.store.cards.find? (fun c => decide (c.id = cid)) with
  | some card =>
    have hm : card ∈ col.allCardsForIds cids :=
      List.mem_filterMap.mpr ⟨cid, hcid, hfind⟩
    have hid : card.id = cid := by
      have hp := List.find?_some hfind
      simpa using hp
    simp only [Option.isSome_some]
    exact List.any_eq_true.mpr ⟨card, hm, decide_eq_true hid⟩
  | none =>
    simp only [Option.isSome_none]
    rw [List.any_eq_false]
    intro card hm
    obtain ⟨cid', hcid', hfind'⟩ := List.mem_filterMap.mp hm
    intro hdec
    have hid : card.id = cid := of_decide_eq_true hdec
    have hmem : card ∈ col.store.cards := List.mem_of_find?_eq_some hfind'
    have : (col.store.cards.find? (fun c => decide (c.id = cid))).isSome :=
      List.find?_isSome.mpr ⟨card, hmem, decide_eq_true hid⟩
    rw [hfind] at this
    cases this

/-- C1: a `setDueDateForCards` batch containing an id absent from the
store fails with a "not found" error identifying the first missing card
id, and the whole transaction aborts: the store shows no mutation. -/
theorem setDueDate_missing_card_aborts
    (col : Collection) (cids : List CardId) (days : String)
    (ctx : Option StringKey) (draw : ℕ → ℕ) (spc : DueDateSpecifier)
    (hparse : parseDueDateStr days = .ok spc) (m : CardId)
    (hfind : cids.find? (fun cid =>
      (col.store.cards.find? (fun c => decide (c.id = cid))).isNone) = some m) :
    (col.setDueDate cids days ctx draw).1 =
      .error (.notFound "card" (toString m.val)) ∧
    ((col.setDueDate cids days ctx draw).2).store = col.store := by
  have hm : m ∈ cids := List.mem_of_find?_eq_some hfind
  have hne : ¬(cids.isEmpty = true) := by
    cases cids with
    | nil => cases hm
    | cons a t => simp
  have habs : col.store.cards.find? (fun c => decide (c.id = m)) = none := by
    have hp := List.find?_some hfind
    simpa using hp
  have hlen : (cids.filterMap
      (fun cid => col.store.cards.find? (fun c => decide (c.id = cid)))).length <
      cids.length :=
    length_filterMap_lt_of_none _ cids m hm habs
  unfold Collection.setDueDate
  rw [hparse]
  dsimp only
  rw [if_neg hne]
  unfold Collection.transact
  dsimp only
  unfold Collection.allCardsForIds
  dsimp only
  rw [if_pos (Nat.ne_of_lt hlen)]
  have hcong := find?_congr_mem
    (fun cid => decide (¬((col.allCardsForIds cids).any
      (fun card => decide (card.id = cid)) = true)))
    (fun cid => (col.store.cards.find? (fun c => decide (c.id = cid))).isNone)
    cids
    (by
      intro cid hcid
      dsimp only
      rw [any_allCardsForIds_eq_isSome col cids cid hcid]
      cases col.store.cards.find? (fun c => decide (c.id = cid)) <;> simp)
  unfold Collection.allCardsForIds at hcong
  rw [hcong, hfind]
  exact ⟨rfl, rfl⟩

/-- Witness for C1: a batch naming card 7 against an empty store fails
with not-found for id 7 and leaves the store unchanged. -/
theorem setDueDate_missing_card_aborts_witness :
    (sampleCollection.setDueDate [⟨7⟩] "5" none (fun _ => 0)).1 =
      .error (.notFound "card" (toString (7 : ℤ))) ∧
    ((sampleCollection.setDueDate [⟨7⟩] "5" none (fun _ => 0)).2).store =
      sampleCollection.store :=
  setDueDate_missing_card_aborts sampleCollection [⟨7⟩] "5" none (fun _ => 0)
    ⟨5, 5, false⟩ rfl ⟨7⟩ rfl

end Anki
